import Mathlib

/-!
Verification of the AI debate moderator's turn-taking / response-validation
core (files debate_core.py, debate_system.py, voice_engine.py).

Python strings are embedded as `List Char`; Python string methods used by the
source (strip, split, split(sep), replace of single characters, rfind, lower,
capitalize, startswith, join) are given as executable Lean functions below.
The external tiktoken codec is abstracted as a `Codec` (an encode/decode pair
over an arbitrary token type); the repository only ever calls `encode`,
`decode` and takes lengths of token lists.
-/

namespace Debate

/-- Python whitespace characters recognised by str.split() / str.strip()
(ASCII subset, which covers every string the repository manipulates). -/
def pyIsSpace (c : Char) : Bool :=
  c = ' ' || c = '\t' || c = '\n' || c = '\r' || c = '\u000B' || c = '\u000C'

/-- Python str.strip(): drop leading and trailing whitespace. -/
def pyStrip (t : List Char) : List Char :=
  ((t.dropWhile pyIsSpace).reverse.dropWhile pyIsSpace).reverse

/-- Helper for `splitWs`: accumulate the current word (reversed). -/
def splitWsAux : List Char → List Char → List (List Char)
  | [], acc => if acc = [] then [] else [acc.reverse]
  | c :: cs, acc =>
    if pyIsSpace c then
      if acc = [] then splitWsAux cs []
      else acc.reverse :: splitWsAux cs []
    else splitWsAux cs (c :: acc)

/-- Python str.split() with no separator: split on runs of whitespace,
discarding empty pieces. -/
def splitWs (t : List Char) : List (List Char) :=
  splitWsAux t []

/-- Helper for `pySplitOn`. -/
def pySplitOnAux (sep : Char) : List Char → List Char → List (List Char)
  | [], acc => [acc.reverse]
  | c :: cs, acc =>
    if c = sep then acc.reverse :: pySplitOnAux sep cs []
    else pySplitOnAux sep cs (c :: acc)

/-- Python str.split(sep) for a one-character separator: keeps empty pieces,
and the empty string yields one empty piece. -/
def pySplitOn (sep : Char) (t : List Char) : List (List Char) :=
  pySplitOnAux sep t []

/-- Python str.replace(old, new) for one-character old and new. -/
def pyReplaceChar (old new : Char) (t : List Char) : List Char :=
  t.map (fun c => if c = old then new else c)

/-- Python str.capitalize(): first character upper-cased, the rest lower-cased. -/
def pyCapitalize : List Char → List Char
  | [] => []
  | c :: cs => c.toUpper :: cs.map Char.toLower

/-- Python str.rfind(c) for a one-character needle: the highest index holding
`c`, or -1 when there is none. -/
def pyRfind (t : List Char) (c : Char) : Int :=
  match t with
  | [] => -1
  | x :: xs =>
    if 0 ≤ pyRfind xs c then pyRfind xs c + 1
    else if x = c then 0
    else -1

/-- Python str.startswith(p). -/
def pyStartsWith : List Char → List Char → Bool
  | _, [] => true
  | [], _ :: _ => false
  | x :: xs, y :: ys => x = y && pyStartsWith xs ys

/-- The sentence terminators the source checks for: `['.', '!', '?']`. -/
def terminators : List Char := ['.', '!', '?']

/-- An encode/decode pair standing for the external tokenizer
(`tiktoken.get_encoding("cl100k_base")` in debate_core.py). The repository
uses it only through `encode`, `decode` and the length of the encoding, so
the token type `τ` is arbitrary. -/
structure Codec (τ : Type) where
  encode : List Char → List τ
  decode : List τ → List Char

/-- TokenAwareDebateAgent.count_tokens: `len(self.tokenizer.encode(text))`. -/
def countTokens {τ : Type} (tok : Codec τ) (t : List Char) : Nat :=
  (tok.encode t).length

/-! ## ResponseValidator: TokenAwareDebateSystem._check_completeness -/

/-- The connective words `_check_completeness` rejects at the end of a text:
`['although', 'but', 'however', 'while', 'though', 'despite']`. -/
def incompleteIndicators : List (List Char) :=
  ["although".data, "but".data, "however".data, "while".data,
   "though".data, "despite".data]

/-- The local `words = text.lower().strip().split()` of `_check_completeness`. -/
def ccWords (t : List Char) : List (List Char) :=
  splitWs (pyStrip (t.map Char.toLower))

/-- The local `sentences` of `_check_completeness`:
`text.replace('!', '.').replace('?', '.').split('.')`, each piece stripped,
empty pieces discarded. -/
def ccSentences (t : List Char) : List (List Char) :=
  ((pySplitOn '.' (pyReplaceChar '?' '.' (pyReplaceChar '!' '.' t))).map pyStrip).filter
    (fun s => !s.isEmpty)

/-- TokenAwareDebateSystem._check_completeness (debate_core.py): the
heuristic completeness check on a response text. -/
def check_completeness (t : List Char) : Bool :=
  if t = [] then false
  else if t.getLastD ' ' ∉ terminators then false
  else if 0 < (ccWords t).length ∧ (ccWords t).getLastD [] ∈ incompleteIndicators then false
  else if ccSentences t = [] then false
  else if (splitWs ((ccSentences t).getLastD [])).length < 2 then false
  else true

/-! ## ResponseTruncator: TokenAwareDebateAgent._ensure_complete_response and
TokenAwareDebateAgent._truncate_to_tokens -/

/-- The phrase list of `_ensure_complete_response` (debate_core.py):
`["although", "however", "but", "while", "despite", "on the other hand",
"in contrast", "nevertheless"]`. -/
def incompletePhrases : List (List Char) :=
  ["although".data, "however".data, "but".data, "while".data, "despite".data,
   "on the other hand".data, "in contrast".data, "nevertheless".data]

/-- The fallback sentence `_ensure_complete_response` returns for empty input. -/
def placeholderText : List Char := "I need to reconsider that point carefully.".data

/-- The `last_end = max(last_period, last_excl, last_question)` computation of
`_ensure_complete_response`: each `rfind` is -1 when the character is absent. -/
def lastEnd (t : List Char) : Int :=
  max (max (pyRfind t '.') (pyRfind t '!')) (pyRfind t '?')

/-- The punctuation-repair step of `_ensure_complete_response`: if the text
does not end in '.', '!' or '?', truncate at the last sentence terminator
when one exists, otherwise append a period. -/
def repairEnd (t : List Char) : List Char :=
  if t.getLastD ' ' ∈ terminators then t
  else if lastEnd t ≠ -1 then t.take ((lastEnd t).toNat + 1)
  else t ++ ['.']

/-- The trailing-connective step of `_ensure_complete_response`:
`words = text.lower().split()`; when there are more than 2 words and the last
is in `incompletePhrases`, drop it, re-join, capitalize and close with '.'. -/
def stripConnective (t : List Char) : List Char :=
  if 2 < (splitWs (t.map Char.toLower)).length ∧
      (splitWs (t.map Char.toLower)).getLastD [] ∈ incompletePhrases then
    pyCapitalize (List.intercalate [' '] (splitWs (t.map Char.toLower)).dropLast) ++ ['.']
  else t

/-- TokenAwareDebateAgent._ensure_complete_response (debate_core.py): strip;
empty input yields the fixed placeholder; otherwise repair the ending and
strip a dangling connective. -/
def ensure_complete_response (input : List Char) : List Char :=
  if pyStrip input = [] then placeholderText
  else stripConnective (repairEnd (pyStrip input))

/-- TokenAwareDebateAgent._truncate_to_tokens (debate_core.py): text whose
encoding fits the budget is returned unchanged; otherwise the first
`maxTokens` tokens are decoded and repaired with `_ensure_complete_response`. -/
def truncate_to_tokens {τ : Type} (tok : Codec τ) (t : List Char) (maxTokens : Nat) :
    List Char :=
  if (tok.encode t).length ≤ maxTokens then t
  else ensure_complete_response (tok.decode ((tok.encode t).take maxTokens))

/-! ## FallbackPool: TokenAwareDebateAgent._get_fallback_response -/

def forText : List Char := "for".data

/-- Opening statements for the FOR stance. -/
def forOpeningPool : List (List Char) :=
  ["I support this position because the benefits are clear and significant.".data,
   "The evidence strongly favors this approach for several key reasons.".data,
   "This direction offers important advantages we should embrace.".data]

/-- Rebuttals for the FOR stance when an opponent statement is present. -/
def forRebuttalOppPool : List (List Char) :=
  ["That\x27s a valid concern, but the data supports my position more strongly.".data,
   "While you raise good points, the advantages outweigh them significantly.".data,
   "I understand your perspective, but consider the proven benefits instead.".data]

/-- Rebuttals for the FOR stance with no opponent statement. -/
def forRebuttalNoOppPool : List (List Char) :=
  ["The statistics clearly support moving forward with this plan.".data,
   "We should focus on the demonstrated advantages of this approach.".data]

/-- Opening statements for the AGAINST stance. -/
def againstOpeningPool : List (List Char) :=
  ["I have serious concerns about this direction due to significant risks.".data,
   "We should reconsider this approach because of potential negative impacts.".data,
   "The evidence suggests we need more caution before proceeding.".data]

/-- Rebuttals for the AGAINST stance when an opponent statement is present. -/
def againstRebuttalOppPool : List (List Char) :=
  ["That argument overlooks important risks we must consider.".data,
   "There are significant flaws in that position we need to address.".data,
   "We\x27re not accounting for all potential negative consequences.".data]

/-- Rebuttals for the AGAINST stance with no opponent statement. -/
def againstRebuttalNoOppPool : List (List Char) :=
  ["The risks involved require more careful consideration.".data,
   "There are better alternatives we should explore instead.".data]

/-- The pool-selection if-tree of `_get_fallback_response` (debate_core.py),
keyed on the configured position, the phase, and Python's truthiness of the
opponent string (non-empty). -/
def fallbackPool (position : List Char) (isOpening : Bool) (opponent : List Char) :
    List (List Char) :=
  if position = forText then
    if isOpening then forOpeningPool
    else if opponent ≠ [] then forRebuttalOppPool
    else forRebuttalNoOppPool
  else
    if isOpening then againstOpeningPool
    else if opponent ≠ [] then againstRebuttalOppPool
    else againstRebuttalNoOppPool

/-- The `random.choice(responses)` of `_get_fallback_response`, with the
random draw modelled as an arbitrary index `choice` reduced modulo the pool
size (`random.choice` picks uniformly among exactly these entries). -/
def fallbackChoice (position : List Char) (isOpening : Bool) (opponent : List Char)
    (choice : Nat) : List Char :=
  (fallbackPool position isOpening opponent).getD
    (choice % (fallbackPool position isOpening opponent).length) []

/-- AgentConfig (debate_core.py). -/
structure AgentConfig where
  name : List Char
  position : List Char
  personality : List Char
  voiceGender : List Char
  voiceSpeed : Nat
  maxTokens : Nat

/-- TokenAwareDebateAgent._get_fallback_response (debate_core.py): pick from
the pool and truncate only if the pick exceeds the configured token budget. -/
def get_fallback_response {τ : Type} (tok : Codec τ) (cfg : AgentConfig) (choice : Nat)
    (isOpening : Bool) (opponent : List Char) : List Char :=
  if cfg.maxTokens < countTokens tok (fallbackChoice cfg.position isOpening opponent choice) then
    truncate_to_tokens tok (fallbackChoice cfg.position isOpening opponent choice) cfg.maxTokens
  else fallbackChoice cfg.position isOpening opponent choice

/-! ## DebateAgent: conversation history and TokenAwareDebateAgent.get_response -/

/-- One entry of an agent's `conversation_history` (debate_core.py). The
source also stores a wall-clock timestamp, which no logic reads; it is
omitted here. -/
structure HistMsg where
  speaker : List Char
  content : List Char
  tokens : Nat

/-- The f-string `f"{msg['speaker']}: {msg['content']}"` whose token count is
the size of one history entry in `_truncate_history`. -/
def histLine (m : HistMsg) : List Char :=
  m.speaker ++ ": ".data ++ m.content

/-- The measured size of one history entry in `_truncate_history`. -/
def histMsgTokens {τ : Type} (tok : Codec τ) (m : HistMsg) : Nat :=
  countTokens tok (histLine m)

/-- The loop of `_truncate_history`: walk the history most-recent-first,
keep each entry whose size still fits the running total (re-inserting it at
the front), and stop at the first entry that does not fit. -/
def truncAux {τ : Type} (tok : Codec τ) (maxTokens : Nat) :
    List HistMsg → Nat → List HistMsg
  | [], _ => []
  | m :: rest, total =>
    if total + histMsgTokens tok m ≤ maxTokens then
      truncAux tok maxTokens rest (total + histMsgTokens tok m) ++ [m]
    else []

/-- TokenAwareDebateAgent._truncate_history (debate_core.py): rebuild
`conversation_history` from its most recent entries under the token budget
(default 300 at the call site in `_get_api_response`). -/
def truncate_history {τ : Type} (tok : Codec τ) (history : List HistMsg)
    (maxTokens : Nat) : List HistMsg :=
  truncAux tok maxTokens history.reverse 0

/-- TokenAwareDebateAgent._get_api_response (debate_core.py), with the
network exchange abstracted as an oracle: `none` stands for any failure the
`try/except` turns into a `None` return (exception, timeout, non-200 status),
`some raw` for a 200 response whose extracted message content is `raw`. On
success the content is stripped, repaired, truncated when it exceeds the
budget by more than the 10 percent tolerance (`token_count > max_tokens * 1.1`,
rendered exactly for integers as `10 * count > 11 * max`), appended to the
agent's history (with the pre-truncation token count, as the source does),
and the history is trimmed under the default budget of 300. -/
def get_api_response {τ : Type} (tok : Codec τ) (cfg : AgentConfig)
    (api : Option (List Char)) (hist : List HistMsg) :
    Option (List Char) × List HistMsg :=
  match api with
  | none => (none, hist)
  | some raw =>
    let text0 := ensure_complete_response (pyStrip raw)
    let tcount := countTokens tok text0
    let text :=
      if 11 * cfg.maxTokens < 10 * tcount then truncate_to_tokens tok text0 cfg.maxTokens
      else text0
    (some text, truncate_history tok (hist ++ [⟨cfg.name, text, tcount⟩]) 300)

/-- The credential marker checked by `get_response`: `"sk-"`. -/
def skMarker : List Char := "sk-".data

/-- TokenAwareDebateAgent.get_response (debate_core.py): without a key that
starts with "sk-" the fallback pool answers immediately; otherwise the API
path runs and a falsy result (None or empty) falls back too. The random
draw of the fallback is the index `choice`; `topic` only shapes the prompt
sent to the oracle, which the oracle argument subsumes. -/
def get_response {τ : Type} (tok : Codec τ) (cfg : AgentConfig) (apiKey : List Char)
    (api : Option (List Char)) (hist : List HistMsg) (choice : Nat)
    (_topic opponent : List Char) (isOpening : Bool) : List Char × List HistMsg :=
  if apiKey = [] ∨ pyStartsWith apiKey skMarker = false then
    (get_fallback_response tok cfg choice isOpening opponent, hist)
  else
    match get_api_response tok cfg api hist with
    | (some t, hist1) =>
      if t = [] then (get_fallback_response tok cfg choice isOpening opponent, hist1)
      else (t, hist1)
    | (none, hist1) => (get_fallback_response tok cfg choice isOpening opponent, hist1)

/-! ## SpeechSink: FixedVoiceEngine.speak (voice_engine.py) -/

/-- The two failure points of `FixedVoiceEngine.speak`, as explicit outcome
flags: `engineCreated` is false when `_create_engine`'s `try/except` caught a
`pyttsx3.init`/property failure and returned `None`; `sayCompleted` is false
when the `say`/`runAndWait`/`stop` block raised and `speak`'s own
`try/except` caught it. Both handlers are inside `speak`'s boundary, which
is what licenses modelling the call as a total function of these flags. -/
structure SpeakOutcome where
  engineCreated : Bool
  sayCompleted : Bool

/-- FixedVoiceEngine.speak (voice_engine.py): `False` when no engine could be
created, `True` when the utterance completed, `False` (after the logged
notice) when rendering raised. -/
def speak (o : SpeakOutcome) : Bool :=
  if o.engineCreated = false then false
  else if o.sayCompleted then true
  else false

/-! ## TurnScheduler: TokenAwareDebateSystem.conduct_debate (debate_core.py) -/

/-- One entry of `TokenAwareDebateSystem.debate_history`. -/
structure DbStmt where
  speaker : List Char
  text : List Char
  tokens : Nat

/-- An agent as the scheduler sees it: a name and a response function
threading private state `S` (covering any key/oracle/history behaviour of
`TokenAwareDebateAgent.get_response`, whose own embedding is above). -/
structure AgentModel (S : Type) where
  name : List Char
  init : S
  respond : S → (topic : List Char) → (opponent : List Char) → (isOpening : Bool) →
    List Char × S

/-- Agent 1's hard-coded incomplete-response fallback in the round loop. -/
def fallback1Text : List Char := "Let me rephrase that point more clearly.".data

/-- Agent 2's hard-coded incomplete-response fallback in the round loop. -/
def fallback2Text : List Char := "I need to address that point differently.".data

/-- The opponent prompt both closing statements receive in debate_core.py. -/
def closingPromptCore : List Char := "Give your final complete summary.".data

/-- The per-response branch of the round loop: a response that passes
`_check_completeness` is recorded as-is with its token count, otherwise the
hard-coded fallback line is recorded instead. -/
def resolveTurn {τ : Type} (tok : Codec τ) (name text fallback : List Char) : DbStmt :=
  if check_completeness text then ⟨name, text, countTokens tok text⟩
  else ⟨name, fallback, countTokens tok fallback⟩

/-- One round of `conduct_debate`: agent 1 answers the last recorded
statement, agent 2 answers agent 1's raw response (`resp1`, not the recorded
entry), each side is spoken (result discarded) and appended. `spk` feeds
`speak` its outcome for each utterance, indexed by the running counter. -/
def roundStep {τ S1 S2 : Type} (tok : Codec τ) (topic : List Char)
    (A : AgentModel S1) (B : AgentModel S2) (spk : Nat → SpeakOutcome)
    (st : List DbStmt × S1 × S2 × Nat) : List DbStmt × S1 × S2 × Nat :=
  let hist := st.1
  let r1 := A.respond st.2.1 topic ((hist.getLastD ⟨[], [], 0⟩).text) false
  let e1 := resolveTurn tok A.name r1.1 fallback1Text
  let _ := speak (spk st.2.2.2)
  let r2 := B.respond st.2.2.1 topic r1.1 false
  let e2 := resolveTurn tok B.name r2.1 fallback2Text
  let _ := speak (spk (st.2.2.2 + 1))
  (hist ++ [e1, e2], r1.2, r2.2, st.2.2.2 + 2)

/-- The `for round_num in range(1, 5)` loop, generalised to `n` rounds
(debate_core.py fixes n = 4). -/
def debateRounds {τ S1 S2 : Type} (tok : Codec τ) (topic : List Char)
    (A : AgentModel S1) (B : AgentModel S2) (spk : Nat → SpeakOutcome) :
    Nat → List DbStmt × S1 × S2 × Nat → List DbStmt × S1 × S2 × Nat
  | 0, st => st
  | n + 1, st => debateRounds tok topic A B spk n (roundStep tok topic A B spk st)

/-- TokenAwareDebateSystem.conduct_debate (debate_core.py), returning the
final `debate_history`: two voice tests, both openings (spoken and appended,
with no completeness check), `R` rounds (the source hard-codes 4 via
`range(1, 5)`), then both closing statements — which are generated and
spoken but never appended to `debate_history`. Every `speak` result is
discarded, exactly as in the source. -/
def tokenConductDebate {τ S1 S2 : Type} (tok : Codec τ) (R : Nat)
    (A : AgentModel S1) (B : AgentModel S2) (topic : List Char)
    (spk : Nat → SpeakOutcome) : List DbStmt :=
  let _ := speak (spk 0)
  let _ := speak (spk 1)
  let r1 := A.respond A.init topic [] true
  let e1 : DbStmt := ⟨A.name, r1.1, countTokens tok r1.1⟩
  let _ := speak (spk 2)
  let r2 := B.respond B.init topic r1.1 true
  let e2 : DbStmt := ⟨B.name, r2.1, countTokens tok r2.1⟩
  let _ := speak (spk 3)
  let q := debateRounds tok topic A B spk R ([e1, e2], r1.2, r2.2, 4)
  let _c1 := A.respond q.2.1 topic closingPromptCore false
  let _ := speak (spk q.2.2.2)
  let _c2 := B.respond q.2.2.1 topic closingPromptCore false
  let _ := speak (spk (q.2.2.2 + 1))
  q.1

/-! ## The basic variant: VerbalDebateSystem.conduct_debate (debate_system.py) -/

/-- One `DebateRound` record of debate_system.py (the dataclass also stores a
timestamp, which no logic reads). -/
structure DebateRound where
  speaker : List Char
  text : List Char

/-- An `OpenRouterDebateAgent` as VerbalDebateSystem sees it:
`generate_response(topic, opponent_statement)` threading private state. -/
structure VerbalAgentModel (S : Type) where
  name : List Char
  init : S
  respond : S → (topic : List Char) → (opponent : List Char) → List Char × S

/-- The opponent prompt both closing statements receive in debate_system.py. -/
def verbalClosingPrompt : List Char := "Give your final summary statement.".data

/-- One round of VerbalDebateSystem.conduct_debate: agent 1 answers the last
recorded statement, agent 2 answers agent 1's response; both are appended
unconditionally (this variant has no completeness check). -/
def verbalRoundStep {S1 S2 : Type} (topic : List Char) (A : VerbalAgentModel S1)
    (B : VerbalAgentModel S2) (st : List DebateRound × S1 × S2) :
    List DebateRound × S1 × S2 :=
  let hist := st.1
  let r1 := A.respond st.2.1 topic ((hist.getLastD ⟨[], []⟩).text)
  let r2 := B.respond st.2.2 topic r1.1
  (hist ++ [⟨A.name, r1.1⟩, ⟨B.name, r2.1⟩], r1.2, r2.2)

/-- The `for round_num in range(1, self.max_rounds + 1)` loop, generalised to
`n` rounds (debate_system.py fixes `max_rounds = 6`). -/
def verbalRounds {S1 S2 : Type} (topic : List Char) (A : VerbalAgentModel S1)
    (B : VerbalAgentModel S2) :
    Nat → List DebateRound × S1 × S2 → List DebateRound × S1 × S2
  | 0, st => st
  | n + 1, st => verbalRounds topic A B n (verbalRoundStep topic A B st)

/-- VerbalDebateSystem.conduct_debate (debate_system.py), returning the final
`debate_history`: both openings appended, `R` rounds, then both closing
statements — generated and spoken but never appended. -/
def verbalConductDebate {S1 S2 : Type} (R : Nat) (A : VerbalAgentModel S1)
    (B : VerbalAgentModel S2) (topic : List Char) : List DebateRound :=
  let r1 := A.respond A.init topic []
  let r2 := B.respond B.init topic r1.1
  let q := verbalRounds topic A B R ([⟨A.name, r1.1⟩, ⟨B.name, r2.1⟩], r1.2, r2.2)
  let _c1 := A.respond q.2.1 topic verbalClosingPrompt
  let _c2 := B.respond q.2.2 topic verbalClosingPrompt
  q.1

/-! ## Concrete instances used by witnesses and counterexamples -/

/-- A concrete unit codec for witnesses: every character is one unit, so
`decode (take n (encode t))` is the first `n` characters. The spec's §4.2
leaves the unit sequence as "tokens or words, per configuration"; the
abstract `Codec` theorems hold for the external cl100k codec as well. -/
def charCodec : Codec Char :=
  ⟨fun t => t, fun t => t⟩

/-- Agent 1 of create_token_aware_agents (debate_core.py). -/
def alexConfig : AgentConfig :=
  ⟨"Alex".data, "for".data,
   "Logical, analytical, cites data and statistics. Keeps responses concise and complete.".data,
   "male".data, 170, 80⟩

/-- Agent 2 of create_token_aware_agents (debate_core.py). -/
def jordanConfig : AgentConfig :=
  ⟨"Jordan".data, "against".data,
   "Passionate, ethical, focuses on human impact. Ensures responses are self-contained.".data,
   "female".data, 190, 200⟩

/-- A stateless test agent answering a fixed line. -/
def constAgent (nm line : List Char) : AgentModel Unit :=
  ⟨nm, (), fun s _ _ _ => (line, s)⟩

/-- A stateless test agent for the basic variant. -/
def constVerbalAgent (nm line : List Char) : VerbalAgentModel Unit :=
  ⟨nm, (), fun s _ _ => (line, s)⟩

/-- Test agent A for concrete runs. -/
def fixAgentA : AgentModel Unit := constAgent "Alex".data "We should act now.".data

/-- Test agent B for concrete runs. -/
def fixAgentB : AgentModel Unit := constAgent "Jordan".data "I disagree with that.".data

/-- A speech-outcome stream where every utterance succeeds. -/
def fixSpk : Nat → SpeakOutcome := fun _ => ⟨true, true⟩

/-- A speech-outcome stream where every utterance fails to render. -/
def failSpk : Nat → SpeakOutcome := fun _ => ⟨false, false⟩

/-- A fixed topic for concrete runs. -/
def fixTopic : List Char := "Test topic".data

/-- The alternating speaker pattern `a, b, a, b, ...` with `n` pairs, used to
state the transcript-shape theorems. -/
def altAB : Nat → List Char → List Char → List (List Char)
  | 0, _, _ => []
  | n + 1, a, b => a :: b :: altAB n a b

end Debate

/-! # Theorems -/
namespace Debate

/-- rfind never returns less than -1. -/
theorem neg_one_le_pyRfind (t : List Char) (c : Char) : -1 ≤ pyRfind t c := by
  induction t with
  | nil => simp [pyRfind]
  | cons x xs ih =>
    simp only [pyRfind]
    split
    · omega
    · split <;> omega

/-- A non-negative rfind result is an in-range index holding the needle. -/
theorem pyRfind_spec (t : List Char) (c : Char) :
    0 ≤ pyRfind t c →
    (pyRfind t c).toNat < t.length ∧ t.getD (pyRfind t c).toNat ' ' = c := by
  induction t with
  | nil => intro h; simp [pyRfind] at h
  | cons x xs ih =>
    intro h
    simp only [pyRfind] at h ⊢
    by_cases hr : 0 ≤ pyRfind xs c
    · rw [if_pos hr] at h ⊢
      obtain ⟨h1, h2⟩ := ih hr
      have ht : (pyRfind xs c + 1).toNat = (pyRfind xs c).toNat + 1 := by omega
      rw [ht]
      refine ⟨?_, ?_⟩
      · simp only [List.length_cons]; omega
      · simpa [List.getD_cons_succ] using h2
    · rw [if_neg hr] at h ⊢
      by_cases hx : x = c
      · rw [if_pos hx] at h ⊢
        simp [hx]
      · rw [if_neg hx] at h
        omega

/-- A lastEnd that is not -1 is an in-range index holding a terminator. -/
theorem lastEnd_spec (t : List Char) (h : lastEnd t ≠ -1) :
    0 ≤ lastEnd t ∧ (lastEnd t).toNat < t.length ∧
    t.getD (lastEnd t).toNat ' ' ∈ terminators := by
  have hp := neg_one_le_pyRfind t '.'
  have he := neg_one_le_pyRfind t '!'
  have hq := neg_one_le_pyRfind t '?'
  have hch : lastEnd t = pyRfind t '.' ∨ lastEnd t = pyRfind t '!' ∨
      lastEnd t = pyRfind t '?' := by
    unfold lastEnd
    rcases max_choice (max (pyRfind t '.') (pyRfind t '!')) (pyRfind t '?') with h1 | h1
    · rcases max_choice (pyRfind t '.') (pyRfind t '!') with h2 | h2
      · left; rw [h1, h2]
      · right; left; rw [h1, h2]
    · right; right; exact h1
  have h0 : 0 ≤ lastEnd t := by
    rcases hch with h1 | h1 | h1 <;> omega
  refine ⟨h0, ?_⟩
  rcases hch with h1 | h1 | h1 <;> rw [h1] at h0 ⊢ <;>
    obtain ⟨ha, hb⟩ := pyRfind_spec t _ h0 <;> exact ⟨ha, by rw [hb]; decide⟩

/-- getLastD of a take of length n+1 is the element at index n. -/
theorem take_getLastD (t : List Char) :
    ∀ (n : Nat) (d : Char), n < t.length →
    (t.take (n + 1)).getLastD d = t.getD n d := by
  induction t with
  | nil => intro n d h; simp at h
  | cons x xs ih =>
    intro n d h
    cases n with
    | zero => simp
    | succ n =>
      have hn : n < xs.length := by simpa using Nat.lt_of_succ_lt_succ h
      rw [List.take_succ_cons, List.getLastD_cons, ih n x hn, List.getD_cons_succ,
        List.getD_eq_getElem xs x hn, List.getD_eq_getElem xs d hn]

/-- The punctuation repair preserves non-emptiness and forces a terminator
ending. -/
theorem repairEnd_ok (t : List Char) (ht : t ≠ []) :
    repairEnd t ≠ [] ∧ (repairEnd t).getLastD ' ' ∈ terminators := by
  unfold repairEnd
  by_cases h1 : t.getLastD ' ' ∈ terminators
  · rw [if_pos h1]; exact ⟨ht, h1⟩
  · rw [if_neg h1]
    by_cases h2 : lastEnd t ≠ -1
    · rw [if_pos h2]
      obtain ⟨h0, hlt, hmem⟩ := lastEnd_spec t h2
      refine ⟨?_, ?_⟩
      · have hl : 0 < (t.take ((lastEnd t).toNat + 1)).length := by
          rw [List.length_take]; omega
        exact List.length_pos.mp hl
      · rw [take_getLastD t _ ' ' hlt]; exact hmem
    · rw [if_neg h2]
      refine ⟨by simp, ?_⟩
      rw [List.getLastD_concat]; decide

/-- The connective strip preserves non-emptiness and a terminator ending. -/
theorem stripConnective_ok (t : List Char) (ht : t ≠ [])
    (h : t.getLastD ' ' ∈ terminators) :
    stripConnective t ≠ [] ∧ (stripConnective t).getLastD ' ' ∈ terminators := by
  unfold stripConnective
  split
  · refine ⟨by simp, ?_⟩; rw [List.getLastD_concat]; decide
  · exact ⟨ht, h⟩

/-- `_ensure_complete_response` always returns non-empty text ending in a
sentence terminator. -/
theorem ensure_ok (t : List Char) :
    ensure_complete_response t ≠ [] ∧
    (ensure_complete_response t).getLastD ' ' ∈ terminators := by
  unfold ensure_complete_response
  by_cases h : pyStrip t = []
  · rw [if_pos h]; exact ⟨by decide, by decide⟩
  · rw [if_neg h]
    obtain ⟨h1, h2⟩ := repairEnd_ok (pyStrip t) h
    exact stripConnective_ok _ h1 h2

/-- The truncator never returns empty text for non-empty input. -/
theorem truncate_ne_nil {τ : Type} (tok : Codec τ) (t : List Char) (N : Nat)
    (ht : t ≠ []) : truncate_to_tokens tok t N ≠ [] := by
  unfold truncate_to_tokens
  split
  · exact ht
  · exact (ensure_ok _).1

end Debate
namespace Debate

/-- Every fallback pool is non-empty. -/
theorem fallbackPool_ne_nil (p : List Char) (o : Bool) (opp : List Char) :
    fallbackPool p o opp ≠ [] := by
  unfold fallbackPool
  split_ifs <;> decide

/-- Every entry of every fallback pool is non-empty and passes
`_check_completeness`. -/
theorem fallbackPool_elem_ok (p : List Char) (o : Bool) (opp : List Char) :
    ∀ s ∈ fallbackPool p o opp, s ≠ [] ∧ check_completeness s = true := by
  unfold fallbackPool
  split_ifs <;> decide

/-- The modelled `random.choice` picks an element of the selected pool. -/
theorem fallbackChoice_mem (p : List Char) (o : Bool) (opp : List Char) (k : Nat) :
    fallbackChoice p o opp k ∈ fallbackPool p o opp := by
  unfold fallbackChoice
  have hl : 0 < (fallbackPool p o opp).length :=
    List.length_pos.mpr (fallbackPool_ne_nil p o opp)
  have hk : k % (fallbackPool p o opp).length < (fallbackPool p o opp).length :=
    Nat.mod_lt _ hl
  rw [List.getD_eq_getElem _ _ hk]
  exact List.getElem_mem hk

/-- The picked fallback line is non-empty and already complete. -/
theorem fallbackChoice_ok (p : List Char) (o : Bool) (opp : List Char) (k : Nat) :
    fallbackChoice p o opp k ≠ [] ∧
    check_completeness (fallbackChoice p o opp k) = true :=
  fallbackPool_elem_ok p o opp _ (fallbackChoice_mem p o opp k)

/-- `_get_fallback_response` never returns empty text. -/
theorem get_fallback_ne_nil {τ : Type} (tok : Codec τ) (cfg : AgentConfig)
    (choice : Nat) (isOpening : Bool) (opp : List Char) :
    get_fallback_response tok cfg choice isOpening opp ≠ [] := by
  unfold get_fallback_response
  split
  · exact truncate_ne_nil _ _ _ (fallbackChoice_ok _ _ _ _).1
  · exact (fallbackChoice_ok _ _ _ _).1

/-- When the picked line fits the budget, `_get_fallback_response` returns it
unchanged. -/
theorem get_fallback_eq {τ : Type} (tok : Codec τ) (cfg : AgentConfig)
    (choice : Nat) (isOpening : Bool) (opp : List Char)
    (h : countTokens tok (fallbackChoice cfg.position isOpening opp choice) ≤ cfg.maxTokens) :
    get_fallback_response tok cfg choice isOpening opp
      = fallbackChoice cfg.position isOpening opp choice := by
  unfold get_fallback_response
  rw [if_neg (by omega)]

/-- `get_response` never returns empty text, whatever the key, oracle outcome
and inputs. -/
theorem get_response_ne_nil {τ : Type} (tok : Codec τ) (cfg : AgentConfig)
    (apiKey : List Char) (api : Option (List Char)) (hist : List HistMsg)
    (choice : Nat) (topic opp : List Char) (isOpening : Bool) :
    (get_response tok cfg apiKey api hist choice topic opp isOpening).1 ≠ [] := by
  unfold get_response
  split
  · exact get_fallback_ne_nil tok cfg choice isOpening opp
  · split
    · rename_i t hist1 heq
      split
      · exact get_fallback_ne_nil tok cfg choice isOpening opp
      · rename_i hne
        exact hne
    · exact get_fallback_ne_nil tok cfg choice isOpening opp

end Debate
namespace Debate

/-- Either branch of the round loop records the active agent as speaker. -/
theorem resolveTurn_speaker {τ : Type} (tok : Codec τ) (nm t fb : List Char) :
    (resolveTurn tok nm t fb).speaker = nm := by
  unfold resolveTurn
  split <;> rfl

/-- The speakers recorded by the round loop: whatever the starting state,
each round appends one agent-1 entry and one agent-2 entry. -/
theorem debateRounds_speakers {τ S1 S2 : Type} (tok : Codec τ) (topic : List Char)
    (A : AgentModel S1) (B : AgentModel S2) (spk : Nat → SpeakOutcome) :
    ∀ (n : Nat) (st : List DbStmt × S1 × S2 × Nat),
      ((debateRounds tok topic A B spk n st).1).map DbStmt.speaker
        = st.1.map DbStmt.speaker ++ altAB n A.name B.name := by
  intro n
  induction n with
  | zero => intro st; simp [debateRounds, altAB]
  | succ n ih =>
    intro st
    show ((debateRounds tok topic A B spk n (roundStep tok topic A B spk st)).1).map
      DbStmt.speaker = st.1.map DbStmt.speaker ++ altAB (n + 1) A.name B.name
    rw [ih]
    simp [roundStep, resolveTurn_speaker, altAB]

/-- `altAB n` lists 2n speakers. -/
theorem altAB_length (n : Nat) (a b : List Char) : (altAB n a b).length = 2 * n := by
  induction n with
  | zero => simp [altAB]
  | succ n ih => simp [altAB, ih]; ring

/-- The speaker sequence of a full token-aware run: A then B, alternating,
2 + 2R entries, ending with B. -/
theorem tokenConductDebate_speakers {τ S1 S2 : Type} (tok : Codec τ) (R : Nat)
    (A : AgentModel S1) (B : AgentModel S2) (topic : List Char)
    (spk : Nat → SpeakOutcome) :
    (tokenConductDebate tok R A B topic spk).map DbStmt.speaker
      = altAB (R + 1) A.name B.name := by
  simp only [tokenConductDebate]
  rw [debateRounds_speakers]
  simp [altAB]

/-- The transcript of a full token-aware run has exactly 2 + 2R entries. -/
theorem tokenConductDebate_length {τ S1 S2 : Type} (tok : Codec τ) (R : Nat)
    (A : AgentModel S1) (B : AgentModel S2) (topic : List Char)
    (spk : Nat → SpeakOutcome) :
    (tokenConductDebate tok R A B topic spk).length = 2 + 2 * R := by
  have h := congrArg List.length (tokenConductDebate_speakers tok R A B topic spk)
  rw [List.length_map, altAB_length] at h
  omega

/-- One round of the loop is unchanged by the speech outcomes (their results
are discarded). -/
theorem roundStep_spk {τ S1 S2 : Type} (tok : Codec τ) (topic : List Char)
    (A : AgentModel S1) (B : AgentModel S2) (spk spk' : Nat → SpeakOutcome)
    (st : List DbStmt × S1 × S2 × Nat) :
    roundStep tok topic A B spk st = roundStep tok topic A B spk' st := rfl

/-- The round loop is unchanged by the speech outcomes. -/
theorem debateRounds_spk {τ S1 S2 : Type} (tok : Codec τ) (topic : List Char)
    (A : AgentModel S1) (B : AgentModel S2) (spk spk' : Nat → SpeakOutcome) :
    ∀ (n : Nat) (st : List DbStmt × S1 × S2 × Nat),
      debateRounds tok topic A B spk n st = debateRounds tok topic A B spk' n st := by
  intro n
  induction n with
  | zero => intro st; rfl
  | succ n ih =>
    intro st
    show debateRounds tok topic A B spk n (roundStep tok topic A B spk st)
      = debateRounds tok topic A B spk' n (roundStep tok topic A B spk' st)
    rw [roundStep_spk tok topic A B spk spk' st]
    exact ih _

/-- The recorded transcript of a full run does not depend on any speech
outcome. -/
theorem tokenConductDebate_spk {τ S1 S2 : Type} (tok : Codec τ) (R : Nat)
    (A : AgentModel S1) (B : AgentModel S2) (topic : List Char)
    (spk spk' : Nat → SpeakOutcome) :
    tokenConductDebate tok R A B topic spk = tokenConductDebate tok R A B topic spk' := by
  simp only [tokenConductDebate]
  rw [debateRounds_spk tok topic A B spk spk']

/-- The speakers recorded by the basic variant's round loop. -/
theorem verbalRounds_speakers {S1 S2 : Type} (topic : List Char)
    (A : VerbalAgentModel S1) (B : VerbalAgentModel S2) :
    ∀ (n : Nat) (st : List DebateRound × S1 × S2),
      ((verbalRounds topic A B n st).1).map DebateRound.speaker
        = st.1.map DebateRound.speaker ++ altAB n A.name B.name := by
  intro n
  induction n with
  | zero => intro st; simp [verbalRounds, altAB]
  | succ n ih =>
    intro st
    show ((verbalRounds topic A B n (verbalRoundStep topic A B st)).1).map
      DebateRound.speaker = st.1.map DebateRound.speaker ++ altAB (n + 1) A.name B.name
    rw [ih]
    simp [verbalRoundStep, altAB]

/-- The speaker sequence of a full basic-variant run. -/
theorem verbalConductDebate_speakers {S1 S2 : Type} (R : Nat)
    (A : VerbalAgentModel S1) (B : VerbalAgentModel S2) (topic : List Char) :
    (verbalConductDebate R A B topic).map DebateRound.speaker
      = altAB (R + 1) A.name B.name := by
  simp only [verbalConductDebate]
  rw [verbalRounds_speakers]
  simp [altAB]

/-- The basic variant's transcript also has exactly 2 + 2R entries. -/
theorem verbalConductDebate_length {S1 S2 : Type} (R : Nat)
    (A : VerbalAgentModel S1) (B : VerbalAgentModel S2) (topic : List Char) :
    (verbalConductDebate R A B topic).length = 2 + 2 * R := by
  have h := congrArg List.length (verbalConductDebate_speakers R A B topic)
  rw [List.length_map, altAB_length] at h
  omega

/-- The history-truncation loop returns a suffix of the reversed input. -/
theorem truncAux_suffix {τ : Type} (tok : Codec τ) (maxT : Nat) :
    ∀ (l : List HistMsg) (total : Nat), (truncAux tok maxT l total) <:+ l.reverse := by
  intro l
  induction l with
  | nil => intro total; simp [truncAux]
  | cons m rest ih =>
    intro total
    simp only [truncAux]
    split
    · obtain ⟨pre, hpre⟩ := ih (total + histMsgTokens tok m)
      exact ⟨pre, by rw [List.reverse_cons, ← List.append_assoc, hpre]⟩
    · exact List.nil_suffix

/-- The history-truncation loop keeps the running total within the budget. -/
theorem truncAux_sum {τ : Type} (tok : Codec τ) (maxT : Nat) :
    ∀ (l : List HistMsg) (total : Nat), total ≤ maxT →
      total + ((truncAux tok maxT l total).map (histMsgTokens tok)).sum ≤ maxT := by
  intro l
  induction l with
  | nil => intro total h; simpa [truncAux]
  | cons m rest ih =>
    intro total h
    simp only [truncAux]
    split
    · rename_i hfit
      have hrec := ih (total + histMsgTokens tok m) hfit
      simp only [List.map_append, List.sum_append, List.map_cons, List.sum_cons,
        List.map_nil, List.sum_nil]
      omega
    · simpa

end Debate
namespace Debate

/-- Full characterization of `_check_completeness`. -/
theorem check_completeness_iff (t : List Char) :
    check_completeness t = true ↔
      t ≠ [] ∧ t.getLastD ' ' ∈ terminators ∧
      ¬(0 < (ccWords t).length ∧ (ccWords t).getLastD [] ∈ incompleteIndicators) ∧
      ccSentences t ≠ [] ∧
      2 ≤ (splitWs ((ccSentences t).getLastD [])).length := by
  unfold check_completeness
  split_ifs with h1 h2 h3 h4 h5 <;> simp_all

end Debate
namespace Debate

/-! # Claims -/

/-- C1, counterexample: the concrete token-aware run with the source's fixed
round count 4 records 2 + 2·4 = 10 statements, not 2 + 2·4 + 2 = 12, and its
last entry is agent B's round-4 rebuttal, not a closing statement (closings
are spoken but never appended to `debate_history`). -/
theorem C1_counterexample :
    (tokenConductDebate charCodec 4 fixAgentA fixAgentB fixTopic fixSpk).length = 2 + 2 * 4
    ∧ (tokenConductDebate charCodec 4 fixAgentA fixAgentB fixTopic fixSpk).length ≠ 2 + 2 * 4 + 2
    ∧ ((tokenConductDebate charCodec 4 fixAgentA fixAgentB fixTopic fixSpk).getLastD
        ⟨[], [], 0⟩).text = "I disagree with that.".data := by
  refine ⟨by decide, by decide, by decide⟩

/-- C1 (corrected): a completed run of either conduct_debate records exactly
2 + 2R statements — two openings plus one statement per agent per round —
alternating speakers starting with agent A and ending with agent B's
round-R rebuttal; every speaker is one of the two configured agents. The
closing statements are generated and spoken but never appended. -/
theorem C1_transcript_shape :
    (∀ {τ S1 S2 : Type} (tok : Codec τ) (R : Nat) (A : AgentModel S1)
      (B : AgentModel S2) (topic : List Char) (spk : Nat → SpeakOutcome),
      (tokenConductDebate tok R A B topic spk).map DbStmt.speaker
          = altAB (R + 1) A.name B.name
      ∧ (tokenConductDebate tok R A B topic spk).length = 2 + 2 * R)
    ∧ (∀ {S1 S2 : Type} (R : Nat) (A : VerbalAgentModel S1)
      (B : VerbalAgentModel S2) (topic : List Char),
      (verbalConductDebate R A B topic).map DebateRound.speaker
          = altAB (R + 1) A.name B.name
      ∧ (verbalConductDebate R A B topic).length = 2 + 2 * R) := by
  constructor
  · intro τ S1 S2 tok R A B topic spk
    exact ⟨tokenConductDebate_speakers tok R A B topic spk,
      tokenConductDebate_length tok R A B topic spk⟩
  · intro S1 S2 R A B topic
    exact ⟨verbalConductDebate_speakers R A B topic,
      verbalConductDebate_length R A B topic⟩

/-- C1, witness: the shape theorem evaluated on a concrete one-round run. -/
theorem C1_transcript_shape_witness :
    (tokenConductDebate charCodec 1 fixAgentA fixAgentB fixTopic fixSpk).map DbStmt.speaker
      = altAB 2 "Alex".data "Jordan".data :=
  (C1_transcript_shape.1 charCodec 1 fixAgentA fixAgentB fixTopic fixSpk).1

/-- C2, counterexample: a text whose encoding fits the budget is returned
unchanged even when it fails `_check_completeness`, so `fit_to_budget` does
not guarantee completeness of its result. -/
theorem C2_counterexample :
    truncate_to_tokens charCodec "hello".data 5 = "hello".data
    ∧ check_completeness "hello".data = false := by
  refine ⟨by decide, by decide⟩

/-- C2 (corrected): `_truncate_to_tokens` returns the text unchanged whenever
its measured size is within the budget (so completeness holds only as far as
the input's); when the size exceeds the budget it returns the
`_ensure_complete_response` repair of the decoded budget-length prefix,
which is always non-empty and ends in a sentence terminator — though it may
still fail `_check_completeness` (its final sentence can have fewer than 2
words). -/
theorem C2_truncator_behaviour :
    ∀ {τ : Type} (tok : Codec τ) (t : List Char) (N : Nat),
      ((tok.encode t).length ≤ N → truncate_to_tokens tok t N = t)
      ∧ (N < (tok.encode t).length →
          truncate_to_tokens tok t N
            = ensure_complete_response (tok.decode ((tok.encode t).take N))
          ∧ truncate_to_tokens tok t N ≠ []
          ∧ (truncate_to_tokens tok t N).getLastD ' ' ∈ terminators) := by
  intro τ tok t N
  constructor
  · intro h
    unfold truncate_to_tokens
    rw [if_pos h]
  · intro h
    unfold truncate_to_tokens
    rw [if_neg (by omega)]
    exact ⟨rfl, (ensure_ok _).1, (ensure_ok _).2⟩

/-- C2, witness: both branches of the truncator theorem at concrete inputs. -/
theorem C2_truncator_behaviour_witness :
    truncate_to_tokens charCodec "hello".data 9 = "hello".data
    ∧ truncate_to_tokens charCodec "Hello there friend".data 11
        = ensure_complete_response
            (charCodec.decode ((charCodec.encode "Hello there friend".data).take 11)) := by
  refine ⟨(C2_truncator_behaviour charCodec "hello".data 9).1 (by decide),
    ((C2_truncator_behaviour charCodec "Hello there friend".data 11).2 (by decide)).1⟩

/-- C3 (confirmed): with no credential — an empty key, or any key not
starting with "sk-" — `get_response` returns a fallback-pool statement
immediately, for every oracle outcome (so no generation call can be
observed) and with the agent's history untouched; the returned statement is
non-empty and, whenever the picked pool line fits the configured budget (as
every pool line does under the shipped configurations), it passes
`_check_completeness`. The result depends only on the draw, phase and
opponent, so the same holds across arbitrarily many consecutive calls. -/
theorem C3_no_key_fallback :
    ∀ {τ : Type} (tok : Codec τ) (cfg : AgentConfig) (apiKey : List Char)
      (api : Option (List Char)) (hist : List HistMsg) (choice : Nat)
      (topic opp : List Char) (isOpening : Bool),
      (apiKey = [] ∨ pyStartsWith apiKey skMarker = false) →
      get_response tok cfg apiKey api hist choice topic opp isOpening
          = (get_fallback_response tok cfg choice isOpening opp, hist)
        ∧ (get_response tok cfg apiKey api hist choice topic opp isOpening).1 ≠ []
        ∧ (countTokens tok (fallbackChoice cfg.position isOpening opp choice) ≤ cfg.maxTokens →
            check_completeness
              (get_response tok cfg apiKey api hist choice topic opp isOpening).1 = true) := by
  intro τ tok cfg apiKey api hist choice topic opp isOpening h
  have heq : get_response tok cfg apiKey api hist choice topic opp isOpening
      = (get_fallback_response tok cfg choice isOpening opp, hist) := by
    unfold get_response
    rw [if_pos h]
  refine ⟨heq, ?_, ?_⟩
  · rw [heq]
    exact get_fallback_ne_nil tok cfg choice isOpening opp
  · intro hfit
    rw [heq]
    show check_completeness (get_fallback_response tok cfg choice isOpening opp) = true
    rw [get_fallback_eq tok cfg choice isOpening opp hfit]
    exact (fallbackChoice_ok _ _ _ _).2

/-- C3, witness: the keyless agent at a concrete call. -/
theorem C3_no_key_fallback_witness :
    get_response charCodec jordanConfig [] (some "x".data) [] 0 fixTopic [] true
        = (get_fallback_response charCodec jordanConfig 0 true [], [])
      ∧ (get_response charCodec jordanConfig [] (some "x".data) [] 0 fixTopic [] true).1 ≠ []
      ∧ check_completeness
          (get_response charCodec jordanConfig [] (some "x".data) [] 0 fixTopic [] true).1
          = true := by
  obtain ⟨h1, h2, h3⟩ := C3_no_key_fallback charCodec jordanConfig []
    (some "x".data) [] 0 fixTopic [] true (Or.inl rfl)
  exact ⟨h1, h2, h3 (by decide)⟩

end Debate
namespace Debate

/-- C4 (confirmed): for every stance, phase and opponent-presence
combination, the fallback pick is an element of the pool for that key,
non-empty, and already passes `_check_completeness`; whenever it fits the
configured budget (as under the shipped configurations) `_get_fallback_response`
returns exactly the picked line. The draw is modelled as an arbitrary index
reduced modulo the pool size — the uniformity of the distribution itself is a
property of Python's `random.choice`, outside the embedding. -/
theorem C4_fallback_pool_complete :
    ∀ {τ : Type} (tok : Codec τ) (cfg : AgentConfig) (choice : Nat)
      (isOpening : Bool) (opp : List Char),
      fallbackChoice cfg.position isOpening opp choice
          ∈ fallbackPool cfg.position isOpening opp
      ∧ fallbackChoice cfg.position isOpening opp choice ≠ []
      ∧ check_completeness (fallbackChoice cfg.position isOpening opp choice) = true
      ∧ (countTokens tok (fallbackChoice cfg.position isOpening opp choice) ≤ cfg.maxTokens →
          get_fallback_response tok cfg choice isOpening opp
            = fallbackChoice cfg.position isOpening opp choice) := by
  intro τ tok cfg choice isOpening opp
  exact ⟨fallbackChoice_mem _ _ _ _, (fallbackChoice_ok _ _ _ _).1,
    (fallbackChoice_ok _ _ _ _).2, fun h => get_fallback_eq tok cfg choice isOpening opp h⟩

/-- C4, witness: one concrete pick, returned unchanged and complete. -/
theorem C4_fallback_pool_complete_witness :
    get_fallback_response charCodec alexConfig 1 false "x".data
        = fallbackChoice alexConfig.position false "x".data 1
    ∧ check_completeness (fallbackChoice alexConfig.position false "x".data 1) = true := by
  obtain ⟨hm, hne, hc, himp⟩ := C4_fallback_pool_complete charCodec alexConfig 1 false "x".data
  exact ⟨himp (by decide), hc⟩

/-- C5 (confirmed): `_check_completeness` returns false on the empty string,
false when the final character is not '.', '!' or '?', false when the last
whitespace token of the lower-cased text is in the fixed connective set,
false when no non-empty sentence remains or the final sentence has fewer
than 2 words — and true exactly otherwise; in particular true on
"This is fine." and false on "I agree, however". -/
theorem C5_check_completeness_spec :
    (∀ t : List Char, check_completeness t = true ↔
      t ≠ [] ∧ t.getLastD ' ' ∈ terminators ∧
      ¬(0 < (ccWords t).length ∧ (ccWords t).getLastD [] ∈ incompleteIndicators) ∧
      ccSentences t ≠ [] ∧
      2 ≤ (splitWs ((ccSentences t).getLastD [])).length)
    ∧ check_completeness [] = false
    ∧ check_completeness "This is fine.".data = true
    ∧ check_completeness "I agree, however".data = false := by
  exact ⟨check_completeness_iff, by decide, by decide, by decide⟩

/-- C5, witness: the characterization applied to the spec's positive example. -/
theorem C5_check_completeness_spec_witness :
    check_completeness "This is fine.".data = true :=
  C5_check_completeness_spec.2.2.1

/-- C6, counterexample: on the empty string the truncator returns the empty
string unchanged (its encoding fits every budget), not the placeholder
sentence. -/
theorem C6_counterexample :
    truncate_to_tokens charCodec [] 5 = [] ∧ ([] : List Char) ≠ placeholderText := by
  refine ⟨by decide, by decide⟩

/-- C6 (corrected): `_truncate_to_tokens` never raises on empty input, but it
returns the empty string unchanged whenever the empty encoding fits the
budget (as it does for the real codec, where encoding "" gives no tokens);
the fixed placeholder sentence is produced by `_ensure_complete_response` on
empty or whitespace-only input, a path the truncator reaches only for
over-budget text. -/
theorem C6_empty_input :
    ∀ {τ : Type} (tok : Codec τ) (N : Nat),
      ((tok.encode []).length ≤ N → truncate_to_tokens tok [] N = [])
      ∧ ensure_complete_response [] = placeholderText := by
  intro τ tok N
  refine ⟨?_, by decide⟩
  intro h
  unfold truncate_to_tokens
  rw [if_pos h]

/-- C6, witness: the empty string under the concrete codec and budget 0. -/
theorem C6_empty_input_witness :
    truncate_to_tokens charCodec [] 0 = [] :=
  (C6_empty_input charCodec 0).1 (by decide)

/-- C7 (confirmed): `get_response` returns a non-empty string for every key,
oracle outcome (success, empty content, failure) and input; and a completed
run records exactly one statement for each opening and each rebuttal phase —
2 + 2R statements in total — whatever the agents and speech outcomes do. -/
theorem C7_always_yields :
    (∀ {τ : Type} (tok : Codec τ) (cfg : AgentConfig) (apiKey : List Char)
      (api : Option (List Char)) (hist : List HistMsg) (choice : Nat)
      (topic opp : List Char) (isOpening : Bool),
      (get_response tok cfg apiKey api hist choice topic opp isOpening).1 ≠ [])
    ∧ (∀ {τ S1 S2 : Type} (tok : Codec τ) (R : Nat) (A : AgentModel S1)
      (B : AgentModel S2) (topic : List Char) (spk : Nat → SpeakOutcome),
      (tokenConductDebate tok R A B topic spk).length = 2 + 2 * R) := by
  constructor
  · intro τ tok cfg apiKey api hist choice topic opp isOpening
    exact get_response_ne_nil tok cfg apiKey api hist choice topic opp isOpening
  · intro τ S1 S2 tok R A B topic spk
    exact tokenConductDebate_length tok R A B topic spk

/-- C7, witness: a concrete failing-oracle call and a concrete one-round run
with failing speech. -/
theorem C7_always_yields_witness :
    (get_response charCodec alexConfig "sk-abc".data none [] 2 fixTopic "x".data false).1 ≠ []
    ∧ (tokenConductDebate charCodec 1 fixAgentA fixAgentB fixTopic failSpk).length
        = 2 + 2 * 1 :=
  ⟨C7_always_yields.1 charCodec alexConfig "sk-abc".data none [] 2 fixTopic "x".data false,
   C7_always_yields.2 charCodec 1 fixAgentA fixAgentB fixTopic failSpk⟩

/-- C8 (confirmed): after every `_truncate_history` call the history is a
contiguous suffix of the previous history (most recent entries, original
order, oldest dropped first) whose total measured size is within the
budget. -/
theorem C8_history_truncation :
    ∀ {τ : Type} (tok : Codec τ) (hist : List HistMsg) (B : Nat),
      (truncate_history tok hist B) <:+ hist
      ∧ ((truncate_history tok hist B).map (histMsgTokens tok)).sum ≤ B := by
  intro τ tok hist B
  constructor
  · have h := truncAux_suffix tok B hist.reverse 0
    unfold truncate_history
    simpa using h
  · have h := truncAux_sum tok B hist.reverse 0 (Nat.zero_le _)
    unfold truncate_history
    omega

/-- C8, witness: a concrete two-entry history trimmed under a small budget. -/
theorem C8_history_truncation_witness :
    (truncate_history charCodec
        [⟨"Alex".data, "We should act now.".data, 0⟩,
         ⟨"Jordan".data, "I disagree with that.".data, 0⟩] 30) <:+
      [⟨"Alex".data, "We should act now.".data, 0⟩,
       ⟨"Jordan".data, "I disagree with that.".data, 0⟩] :=
  (C8_history_truncation charCodec _ 30).1

/-- C9 (confirmed): `FixedVoiceEngine.speak` is a total boolean-returning
function of the two caught failure points (engine creation, rendering) —
false on failure, true on success, modelling that both `try/except` handlers
sit inside its own boundary — and the debate loop's recorded transcript is
identical under any speech outcomes, so a rendering or engine-creation
failure can never abort or alter the debate. -/
theorem C9_speech_never_fatal :
    (∀ o : SpeakOutcome, speak o = (o.engineCreated && o.sayCompleted))
    ∧ (∀ {τ S1 S2 : Type} (tok : Codec τ) (R : Nat) (A : AgentModel S1)
      (B : AgentModel S2) (topic : List Char) (spk spk' : Nat → SpeakOutcome),
      tokenConductDebate tok R A B topic spk = tokenConductDebate tok R A B topic spk') := by
  constructor
  · intro o
    unfold speak
    cases o with
    | mk e s => cases e <;> cases s <;> rfl
  · intro τ S1 S2 tok R A B topic spk spk'
    exact tokenConductDebate_spk tok R A B topic spk spk'

/-- C9, witness: a failed engine creation returns false, and a run where
every utterance fails records the same transcript as one where all succeed. -/
theorem C9_speech_never_fatal_witness :
    speak ⟨false, true⟩ = false
    ∧ tokenConductDebate charCodec 1 fixAgentA fixAgentB fixTopic fixSpk
        = tokenConductDebate charCodec 1 fixAgentA fixAgentB fixTopic failSpk := by
  refine ⟨?_, C9_speech_never_fatal.2 charCodec 1 fixAgentA fixAgentB fixTopic fixSpk failSpk⟩
  have h := C9_speech_never_fatal.1 ⟨false, true⟩
  simpa using h

/-- C10 (confirmed): every key that does not start with "sk-" — including
non-empty, otherwise plausible keys — makes `get_response` behave exactly as
with no key at all: the same fallback statement is returned for every oracle
outcome, with the history untouched. -/
theorem C10_non_sk_key_is_no_key :
    ∀ {τ : Type} (tok : Codec τ) (cfg : AgentConfig) (apiKey : List Char)
      (api : Option (List Char)) (hist : List HistMsg) (choice : Nat)
      (topic opp : List Char) (isOpening : Bool),
      pyStartsWith apiKey skMarker = false →
      get_response tok cfg apiKey api hist choice topic opp isOpening
          = get_response tok cfg [] api hist choice topic opp isOpening
      ∧ get_response tok cfg apiKey api hist choice topic opp isOpening
          = (get_fallback_response tok cfg choice isOpening opp, hist) := by
  intro τ tok cfg apiKey api hist choice topic opp isOpening h
  have h1 : get_response tok cfg apiKey api hist choice topic opp isOpening
      = (get_fallback_response tok cfg choice isOpening opp, hist) := by
    unfold get_response
    rw [if_pos (Or.inr h)]
  have h2 : get_response tok cfg [] api hist choice topic opp isOpening
      = (get_fallback_response tok cfg choice isOpening opp, hist) := by
    unfold get_response
    rw [if_pos (Or.inl rfl)]
  exact ⟨h1.trans h2.symm, h1⟩

/-- C10, witness: a plausible non-"sk-" key at a concrete call. -/
theorem C10_non_sk_key_is_no_key_witness :
    get_response charCodec alexConfig "or-v1-12345".data (some "y".data) [] 3 fixTopic [] false
        = get_response charCodec alexConfig [] (some "y".data) [] 3 fixTopic [] false
    ∧ get_response charCodec alexConfig "or-v1-12345".data (some "y".data) [] 3 fixTopic [] false
        = (get_fallback_response charCodec alexConfig 3 false [], []) :=
  C10_non_sk_key_is_no_key charCodec alexConfig "or-v1-12345".data (some "y".data) []
    3 fixTopic [] false (by decide)

end Debate
